import Mathlib

/-!
Alist crypt-refresh companion script (`alist_refresh.js`)

A shallow embedding of the browser script and the properties of its
path normalisation, path resolution, configuration lookup, refresh call,
control mounting and navigation watching.

Conventions of the embedding.

* A JavaScript string is a list of characters (`JSString`).  A character here
  is a Unicode scalar value where JavaScript has UTF-16 code units; on
  well-formed strings the operations used by the script (prefix and suffix
  tests, search of the first occurrence, removal of a final `/`) agree in the
  two readings.  A value that is either `null`/`undefined` or a string is an
  `Option JSString`.
* Ambient browser state (localStorage, the global `config`, the global
  `refresh_btn`, the document, the location) and the observable effects
  (prompts, alerts, console, network requests, synthetic clicks, scheduled
  animation-frame callbacks) are fields of one explicit `World` record that
  every operation threads through.
* What the user types into `prompt` and what the network answers to `fetch`
  are inputs: they are queues in the `World`, consumed in order.
* The third-party path-encryption library and the platform's JSON reader are
  parameters (`Env`); the library can be absent or fail.
* `window.location.pathname` is represented after `decodeURIComponent`.
* An `async` function is run to completion as one step.
* The first lines of the script, which load the encryption library into the
  page, have no counterpart: the library is the parameter `Env.rclone`, and a
  library that has not arrived is a construction that fails.
* Exceptions are completions: a statement that can throw outside a `try`
  block ends the function with `.error`.
-/

namespace AlistRefresh

/-! ## JavaScript strings -/

/-- A JavaScript string. -/
abbrev JSString := List Char

/-- JavaScript truthiness of a value that is `null` or a string: only a
non-empty string is truthy. -/
def truthy : Option JSString → Bool
  | some (_ :: _) => true
  | _ => false

/-- The abstract operation `ToString` on a value that is `null` or a string. -/
def toStr : Option JSString → JSString
  | some s => s
  | none => "null".toList

/-- The method `String.prototype.startsWith` (position 0). -/
def startsWith (s pre : JSString) : Bool := pre.isPrefixOf s

/-- The method `String.prototype.endsWith` (end position = length). -/
def endsWith (s suf : JSString) : Bool := suf.isSuffixOf s

/-- The method `String.prototype.replace` with a string pattern and a
replacement without `$` patterns: the first occurrence of `pat`, scanning
from the left, is replaced; without an occurrence the string is returned
as it is. -/
def replaceFirst (pat rep : JSString) : JSString → JSString
  | [] => if pat.isPrefixOf [] then rep else []
  | c :: cs =>
    if pat.isPrefixOf (c :: cs) then rep ++ (c :: cs).drop pat.length
    else c :: replaceFirst pat rep cs

/-- Replacement by a regular expression of the shape `/^lit/` (anchored
literal, no flags): when the string starts with `lit`, that prefix is
replaced by `rep`. -/
def replaceAnchored (lit rep s : JSString) : JSString :=
  if startsWith s lit then rep ++ s.drop lit.length else s

/-- Matching of the regular expression `/^\/(@|#|dav)\//`: the alternatives of
the group are tried from left to right; the result is the matched prefix. -/
def matchRoutingPrefix (s : JSString) : Option JSString :=
  if startsWith s "/@/".toList then some "/@/".toList
  else if startsWith s "/#/".toList then some "/#/".toList
  else if startsWith s "/dav/".toList then some "/dav/".toList
  else none

/-! ## getCurrentAlistPath -/

/-- The function `getCurrentAlistPath`, applied to the decoded
`window.location.pathname`. -/
def getCurrentAlistPath (decodedPathname : JSString) : JSString :=
  let path := decodedPathname
  -- path = path.replace(/^\/(@|#|dav)\//, '/')
  let path :=
    match matchRoutingPrefix path with
    | some m => "/".toList ++ path.drop m.length
    | none => path
  -- path = '/' + path.replace(/^\//, '')
  let path := "/".toList ++ replaceAnchored "/".toList [] path
  -- if (path !== '/' && path.endsWith('/')) path = path.slice(0, -1)
  if path ≠ "/".toList ∧ endsWith path "/".toList then path.dropLast else path

/-- The routing markers of the regular expression in `getCurrentAlistPath`. -/
def routingMarkers : List JSString := ["@".toList, "#".toList, "dav".toList]

/-- A path begins with one of the routing prefixes `/@/`, `/#/`, `/dav/`. -/
def hasRoutingPrefix (s : JSString) : Bool :=
  (matchRoutingPrefix s).isSome

/-! ## Browser state -/

/-- The table `CONFIG_KEYS`: the localStorage key of each setting. -/
structure ConfigKeys where
  baseUrl : JSString
  token : JSString
  rclonePassword : JSString
  rcloneSalt : JSString
  crypt : JSString
  cryptraw : JSString
  encode : JSString

/-- The constant `CONFIG_KEYS`. -/
def CONFIG_KEYS : ConfigKeys where
  baseUrl := "alistRefresh_baseUrl".toList
  token := "alistRefresh_token".toList
  rclonePassword := "alistRefresh_rclonePassword".toList
  rcloneSalt := "alistRefresh_rcloneSalt".toList
  crypt := "cryptpath".toList
  cryptraw := "cryptpathraw".toList
  encode := "cryptencode".toList

/-- The global object `config`; every field is `null` or a string. -/
structure Config where
  baseUrl : Option JSString
  token : Option JSString
  rclonePassword : Option JSString
  rcloneSalt : Option JSString
  crypt : Option JSString
  cryptraw : Option JSString
  encode : Option JSString

/-- The value of `config` when the script starts: every field `null`. -/
def Config.initial : Config where
  baseUrl := none
  token := none
  rclonePassword := none
  rcloneSalt := none
  crypt := none
  cryptraw := none
  encode := none

/-- The inline style of the injected button (`button.style`); a property the
script has not assigned is the empty string. -/
structure Style where
  position : JSString
  right : JSString
  top : JSString
  transform : JSString
  zIndex : JSString
  padding : JSString
  cursor : JSString
  backgroundColor : JSString
  color : JSString
  border : JSString
  borderRadius : JSString
  boxShadow : JSString
  display : JSString
  deriving DecidableEq

/-- The injected control: the element made by `document.createElement('button')`. -/
structure Button where
  id : JSString
  textContent : JSString
  style : Style
  deriving DecidableEq

/-- Severity of a console entry. -/
inductive Level where
  | log
  | error
  deriving DecidableEq

/-- One call of `console.log` or `console.error` with its arguments. -/
structure LogEntry where
  level : Level
  args : List JSString
  deriving DecidableEq

/-- The JSON payload of the refresh request, before `JSON.stringify`. -/
structure RequestBody where
  path : Option JSString
  password : JSString
  page : Nat
  per_page : Nat
  refresh : Bool
  deriving DecidableEq

/-- One call of `fetch`: the URL and the request options. -/
structure Request where
  url : JSString
  method : JSString
  headers : List (JSString × JSString)
  body : RequestBody
  redirect : JSString
  deriving DecidableEq

/-- A response of the remote API.  The field `text` is the outcome of
`response.text()`, which can reject. -/
structure Response where
  status : Nat
  statusText : JSString
  text : Except JSString JSString

/-- The property `response.ok`: the status is in the range 200 to 299. -/
def Response.ok (r : Response) : Bool := decide (200 ≤ r.status) && decide (r.status ≤ 299)

/-- What awaiting `fetch` yields: a rejection (connectivity, cross-origin
refusal) or a response. -/
inductive FetchOutcome where
  | networkError (error : JSString)
  | response (r : Response)

/-- A callback registered for `DOMContentLoaded`. -/
inductive Listener where
  | addFixedRefreshButton
  deriving DecidableEq

/-- A callback handed to `window.requestAnimationFrame`. -/
inductive FrameCallback where
  | update
  deriving DecidableEq

/-- The collaborators that are not part of the script. -/
structure Env where
  /-- The answer of the user to the n-th `prompt` of the page (counted from 0):
  `none` is a cancelled prompt. -/
  userAnswer : Nat → Option JSString
  /-- The network: the outcome of `fetch` for a request. -/
  fetch : Request → FetchOutcome
  /-- The expression `await window.rclone.Rclone({ password, salt, encoding })`:
  `.error` when the library is not loaded or the construction rejects;
  otherwise the method `rclone.Path.encrypt` of the result, which can throw. -/
  rclone : Option JSString → Option JSString → Option JSString →
    Except JSString (JSString → Except JSString JSString)
  /-- The statements `JSON.parse(text)` and
  `errorJson.message || JSON.stringify(errorJson)`: `none` when they throw. -/
  jsonErrorDetails : JSString → Option JSString

/-- The browser state the script reads and writes, with the effects it has
produced so far. -/
structure World where
  /-- The durable store `localStorage`: `getItem` of each key. -/
  localStorage : JSString → Option JSString
  /-- The global `config`. -/
  config : Config
  /-- The global `refresh_btn` (`undefined` before the control is mounted). -/
  refresh_btn : Option Button
  /-- Whether `document.getElementById('alist-refresh-fixed-button')` finds an element. -/
  documentHasButton : Bool
  /-- Whether `document.readyState === 'loading'`. -/
  readyStateLoading : Bool
  /-- The listeners registered for `DOMContentLoaded`. -/
  domContentLoaded : List Listener
  /-- The value of `window.location.origin`. -/
  origin : JSString
  /-- The value of `decodeURIComponent(window.location.pathname)`. -/
  decodedPathname : JSString
  /-- Whether `document.querySelector('[tips="refresh"]')` finds the host control. -/
  hostRefreshControl : Bool
  /-- Whether the MutationObserver has been attached to the document. -/
  observing : Bool
  /-- The messages of the prompts shown so far. -/
  prompts : List JSString
  /-- The messages of the alerts shown so far. -/
  alerts : List JSString
  /-- The console output so far. -/
  console : List LogEntry
  /-- The requests sent so far. -/
  requests : List Request
  /-- The arguments of the calls of `rclone.Path.encrypt` so far. -/
  encryptCalls : List JSString
  /-- The number of synthetic clicks dispatched on the host refresh control. -/
  hostRefreshClicks : Nat
  /-- The callbacks scheduled for the next animation frame. -/
  frameCallbacks : List FrameCallback

/-- The state when the script starts on a page: `config` all `null`,
`refresh_btn` undefined, no effect yet. -/
def World.initial (store : JSString → Option JSString) (origin decodedPathname : JSString)
    (documentHasButton readyStateLoading hostRefreshControl : Bool) : World where
  localStorage := store
  config := Config.initial
  refresh_btn := none
  documentHasButton := documentHasButton
  readyStateLoading := readyStateLoading
  domContentLoaded := []
  origin := origin
  decodedPathname := decodedPathname
  hostRefreshControl := hostRefreshControl
  observing := false
  prompts := []
  alerts := []
  console := []
  requests := []
  encryptCalls := []
  hostRefreshClicks := 0
  frameCallbacks := []

/-- The call `console.log(...args)`. -/
def consoleLog (w : World) (args : List JSString) : World :=
  { w with console := w.console ++ [⟨Level.log, args⟩] }

/-- The call `console.error(...args)`. -/
def consoleError (w : World) (args : List JSString) : World :=
  { w with console := w.console ++ [⟨Level.error, args⟩] }

/-- The call `alert(message)`. -/
def alert (w : World) (message : JSString) : World :=
  { w with alerts := w.alerts ++ [message] }

/-- The call `prompt(message)`: the message is shown and the user answers. -/
def prompt (env : Env) (w : World) (message : JSString) : Option JSString × World :=
  (env.userAnswer w.prompts.length, { w with prompts := w.prompts ++ [message] })

/-- The call `localStorage.setItem(key, value)`. -/
def setItem (w : World) (key value : JSString) : World :=
  { w with localStorage := fun k => if k = key then some value else w.localStorage k }

/-! ## Header values -/

/-- An HTTP whitespace byte: tab, line feed, carriage return or space. -/
def isHttpWhitespace (c : Char) : Bool :=
  c.toNat == 9 || c.toNat == 10 || c.toNat == 13 || c.toNat == 32

/-- The normalisation of a header value by `Headers.append`: leading and
trailing HTTP whitespace is removed. -/
def normalizeHeaderValue (value : JSString) : JSString :=
  ((value.dropWhile isHttpWhitespace).reverse.dropWhile isHttpWhitespace).reverse

/-- Whether `headers.append(name, value)` accepts the value: every code unit is
at most 255 (conversion to a byte string) and the normalised value holds no
NUL, line feed or carriage return.  Otherwise the call throws a TypeError. -/
def validHeaderValue (value : JSString) : Bool :=
  value.all (fun c => decide (c.toNat ≤ 255)) &&
  (normalizeHeaderValue value).all
    (fun c => !(c.toNat == 0 || c.toNat == 10 || c.toNat == 13))

/-! ## getConfig -/

/-- The function `getConfig(key, promptMessage, isSensitive)`.  The first
component is the completion: `.error e` is `throw e`, `.ok none` is
`return null`, `.ok (some v)` is `return v`. -/
def getConfig (env : Env) (w : World) (key promptMessage : JSString) (isSensitive : Bool) :
    Except JSString (Option JSString) × World :=
  -- let value = localStorage.getItem(key)
  let value := w.localStorage key
  if !truthy value then
    -- value = prompt(promptMessage)
    let (value, w) := prompt env w promptMessage
    if truthy value then
      let w := setItem w key (toStr value)
      let w := consoleLog w
        ["Alist Refresh: Saved ".toList ++ key ++ " to localStorage.".toList]
      (.ok value, w)
    else
      if isSensitive then
        (.error ("Alist Refresh: User cancelled or provided no input for ".toList ++ key
          ++ ".".toList), w)
      else
        let w := consoleError w
          ["Alist Refresh: User cancelled or provided no input for ".toList ++ key
            ++ ".".toList]
        (.ok none, w)
  else
    (.ok value, w)

/-! ## refreshAlistPath -/

/-- Lines 99 to 102 of `refreshAlistPath`: the mount path is removed from the
logical path and one leading slash is removed from what is left. -/
def relativeTail (crypt : Option JSString) (curPath : JSString) : JSString :=
  -- curPath = curPath.replace(config.crypt, "")
  let curPath := replaceFirst (toStr crypt) [] curPath
  -- if (curPath.startsWith("/")) curPath = curPath.replace("/", "")
  if startsWith curPath "/".toList then replaceFirst "/".toList [] curPath else curPath

/-- Lines 99 to 111 of `refreshAlistPath`: from the logical path to the target
path.  The completion is the target path with the relative tail (the new
value of `curPath`), or the exception of the library; a call of the
encryption is recorded in the state. -/
def resolveTarget (env : Env) (w : World) (curPath : JSString) :
    Except JSString (Option JSString × JSString) × World :=
  let curPath := relativeTail w.config.crypt curPath
  -- const rclone = await window.rclone.Rclone({ password, salt, encoding })
  match env.rclone w.config.rclonePassword w.config.rcloneSalt w.config.encode with
  | .error e => (.error e, w)
  | .ok encrypt =>
    let target_path := w.config.cryptraw
    if curPath ≠ [] then
      -- const encryptedPath = rclone.Path.encrypt(curPath)
      let w := { w with encryptCalls := w.encryptCalls ++ [curPath] }
      match encrypt curPath with
      | .error e => (.error e, w)
      | .ok encryptedPath =>
        (.ok (some (toStr target_path ++ "/".toList ++ encryptedPath), curPath), w)
    else (.ok (target_path, curPath), w)

/-- The request of `refreshAlistPath` for a target path. -/
def refreshRequest (config : Config) (target_path : Option JSString) : Request where
  url := toStr config.baseUrl ++ "/api/fs/list".toList
  method := "POST".toList
  headers := [("Authorization".toList, normalizeHeaderValue (toStr config.token)),
    ("Content-Type".toList, "application/json".toList)]
  body := ⟨target_path, [], 1, 0, true⟩
  redirect := "follow".toList

/-- The `try` block of `refreshAlistPath` (lines 134 to 158): the request is
sent and the outcome is interpreted; every exception raised inside is caught
by the `catch` clause and logged. -/
def sendRefresh (env : Env) (w : World) (target_path : Option JSString) : World :=
  let request := refreshRequest w.config target_path
  let w := { w with requests := w.requests ++ [request] }
  match env.fetch request with
  | .networkError error =>
    consoleError w ["Alist Refresh: Network or fetch error:".toList, error]
  | .response r =>
    match r.text with
    | .error error =>
      consoleError w ["Alist Refresh: Network or fetch error:".toList, error]
    | .ok resultText =>
      if !r.ok then
        let errorDetails := (env.jsonErrorDetails resultText).getD resultText
        consoleError w
          ["Alist Refresh Error: ".toList ++ (Nat.repr r.status).toList ++ " ".toList
            ++ r.statusText ++ ". Details: ".toList ++ errorDetails]
      else
        let w := consoleLog w
          ["Alist Refresh: Successfully requested refresh for ".toList ++ toStr target_path
            ++ ". Response:".toList, resultText]
        if w.hostRefreshControl then
          { w with hostRefreshClicks := w.hostRefreshClicks + 1 }
        else
          -- querySelector returned null: the TypeError is caught
          consoleError w ["Alist Refresh: Network or fetch error:".toList,
            "TypeError".toList]

/-- The function `refreshAlistPath(curPath)`.  The completion `.error e` is an
exception that leaves the function (a rejected promise): the statements before
the `try` block that can throw are the three calls of `getConfig`, the
construction and the call of the encryption, and `headers.append` on the
token. -/
def refreshAlistPath (env : Env) (w : World) (curPath : JSString) :
    Except JSString Unit × World :=
  if !truthy w.config.baseUrl || !truthy w.config.token then
    (.ok (), alert w
      "Alist URL or Token is not configured. Please reload and enter the details.".toList)
  else if !truthy (some curPath) then
    let w := consoleError w
      ["Alist Refresh: No path provided by getCurrentAlistPathFromPage().".toList]
    (.ok (), alert w "Error: Could not determine the path to refresh from the page.".toList)
  else
    match getConfig env w CONFIG_KEYS.rclonePassword
        "Enter your Rclone Crypt Password:".toList true with
    | (.error e, w) => (.error e, w)
    | (.ok v, w) =>
      let w := { w with config := { w.config with rclonePassword := v } }
      match getConfig env w CONFIG_KEYS.rcloneSalt
          "Enter your Rclone Crypt Salt:".toList true with
      | (.error e, w) => (.error e, w)
      | (.ok v, w) =>
        let w := { w with config := { w.config with rcloneSalt := v } }
        match getConfig env w CONFIG_KEYS.encode
            "Enter your Rclone Crypt encode base64:".toList true with
        | (.error e, w) => (.error e, w)
        | (.ok v, w) =>
          let w := { w with config := { w.config with encode := v } }
          match resolveTarget env w curPath with
          | (.error e, w) => (.error e, w)
          | (.ok (target_path, curPath), w) =>
            let w := consoleLog w
              ["Alist Refresh: Attempting to refresh path: ".toList ++ toStr target_path
                ++ ", curPath ".toList ++ curPath]
            -- headers.append("Authorization", config.token)
            if !validHeaderValue (toStr w.config.token) then
              (.error "TypeError: Failed to execute 'append' on 'Headers': Invalid value".toList, w)
            else
              (.ok (), sendRefresh env w target_path)

/-! ## The control -/

/-- The style of a new element: nothing assigned. -/
def Style.unset : Style := ⟨[], [], [], [], [], [], [], [], [], [], [], [], []⟩

/-- The button as `addFixedRefreshButton` configures it (lines 171 to 186). -/
def newButton : Button where
  id := "alist-refresh-fixed-button".toList
  textContent := [Char.ofNat 0xF0, Char.ofNat 0x178, Char.ofNat 0x201D, Char.ofNat 0x201E]
  style :=
    { Style.unset with
      position := "fixed".toList
      right := "20px".toList
      top := "50%".toList
      transform := "translateY(-50%)".toList
      zIndex := "9999".toList
      padding := "10px 15px".toList
      cursor := "pointer".toList
      backgroundColor := "#4CAF50".toList
      color := "white".toList
      border := "none".toList
      borderRadius := "5px".toList
      boxShadow := "0 2px 5px rgba(0,0,0,0.2)".toList }

/-- The function `addFixedRefreshButton`. -/
def addFixedRefreshButton (w : World) : World :=
  if w.documentHasButton then
    consoleLog w ["Alist Refresh: Button already exists.".toList]
  else
    let button := newButton
    -- document.body.appendChild(button)
    let w := { w with documentHasButton := true }
    let w := consoleLog w ["Alist Refresh: Fixed refresh button added to page.".toList]
    { w with refresh_btn := some button }

/-- The handler `button.onclick`. -/
def onclick (env : Env) (w : World) : Except JSString Unit × World :=
  let currentPath := getCurrentAlistPath w.decodedPathname
  if truthy (some currentPath) then
    refreshAlistPath env w currentPath
  else
    (.ok (), consoleLog w
      ["Alist Refresh: Button clicked, but no path obtained from getCurrentAlistPathFromPage.".toList])

/-- The event `DOMContentLoaded`: the registered listeners run. -/
def fireDOMContentLoaded (w : World) : World :=
  w.domContentLoaded.foldl
    (fun w l => match l with | .addFixedRefreshButton => addFixedRefreshButton w)
    { w with readyStateLoading := false }

/-- The control is hidden: its `display` is `'none'`. -/
def Button.hidden (b : Button) : Bool := decide (b.style.display = "none".toList)

/-- The control is shown by the script: its `display` is `'block'`. -/
def Button.visible (b : Button) : Bool := decide (b.style.display = "block".toList)

/-- The assignment `refresh_btn.style.display = value`. -/
def Button.setDisplay (b : Button) (value : JSString) : Button :=
  { b with style := { b.style with display := value } }

/-! ## Initialisation, update and the watcher -/

/-- The function `initializeAlistRefresh`. -/
def initializeAlistRefresh (env : Env) (w : World) : Except JSString Unit × World :=
  let w := consoleLog w ["Alist Refresh: Initializing...".toList]
  let w := { w with config := { w.config with baseUrl := some w.origin } }
  let w := consoleLog w
    ["Alist Refresh: Auto-detected baseUrl as ".toList ++ toStr w.config.baseUrl]
  let w := { w with config := { w.config with token := w.localStorage "token".toList } }
  if !truthy w.config.token then
    (.ok (), alert w
      "Alist API Token not found in localStorage (key: 'token'). Please login first.".toList)
  else
    let w := consoleLog w
      ["Alist Refresh: Token successfully retrieved from localStorage.".toList]
    match getConfig env w CONFIG_KEYS.crypt
        "Enter the Alist UI Mount Path for the Crypt Storage (e.g., /crypt). It cannot be root '/'.".toList
        true with
    | (.error e, w) => (.error e, w)
    | (.ok v, w) =>
      let w := { w with config := { w.config with crypt := v } }
      match getConfig env w CONFIG_KEYS.cryptraw
          ("Enter the Base Path on the Raw/Real Storage corresponding to ".toList
            ++ toStr w.config.crypt ++ " (e.g., /real_files or /):".toList)
          true with
      | (.error e, w) => (.error e, w)
      | (.ok v, w) =>
        let w := { w with config := { w.config with cryptraw := v } }
        let w :=
          if w.readyStateLoading then
            { w with domContentLoaded := w.domContentLoaded ++ [Listener.addFixedRefreshButton] }
          else addFixedRefreshButton w
        (.ok (), consoleLog w ["Alist Refresh: Initialization complete.".toList])

/-- The function `update`. -/
def update (w : World) : World :=
  match w.refresh_btn with
  | none => w
  | some btn =>
    if startsWith (getCurrentAlistPath w.decodedPathname) (toStr w.config.crypt) then
      { w with refresh_btn := some (btn.setDisplay "block".toList) }
    else
      { w with refresh_btn := some (btn.setDisplay "none".toList) }

/-- One record of a batch of mutations: the numbers of added and removed nodes. -/
structure MutationRecord where
  addedNodes : Nat
  removedNodes : Nat
  deriving DecidableEq

/-- The callback of the MutationObserver, run for one batch of mutations. -/
def observerCallback (w : World) (_mutations : List MutationRecord) : World :=
  -- window.requestAnimationFrame(() => { update() })
  { w with frameCallbacks := w.frameCallbacks ++ [FrameCallback.update] }

/-- The delivery of a sequence of mutation batches: the observer callback runs
once for each batch, in order. -/
def deliverBatches (w : World) : List (List MutationRecord) → World
  | [] => w
  | batch :: rest => deliverBatches (observerCallback w batch) rest

/-- One animation frame: the callbacks scheduled before the frame run in the
order of their registration, and the list is emptied. -/
def runAnimationFrame (w : World) : World :=
  w.frameCallbacks.foldl (fun w cb => match cb with | .update => update w)
    { w with frameCallbacks := [] }

/-- The script from line 246 on: initialisation, then the observer is
attached; an exception of the initialisation ends the script. -/
def main (env : Env) (w : World) : Except JSString Unit × World :=
  match initializeAlistRefresh env w with
  | (.error e, w) => (.error e, w)
  | (.ok _, w) =>
    let w := { w with observing := true }
    (.ok (), consoleLog w ["alist_refresh.js evaluation complete.".toList])

/-! ## Vocabulary of the properties -/

/-- The target paths of the refresh requests sent so far. -/
def sentTargets (w : World) : List (Option JSString) :=
  w.requests.map (fun r => r.body.path)

/-- Origin and token are set, the mount path and the base path are configured
and the three crypt credentials are stored, all non-empty where the script
needs them to be. -/
def Configured (w : World) (mount base pw salt enc : JSString) : Prop :=
  truthy w.config.baseUrl = true ∧ truthy w.config.token = true ∧
  w.config.crypt = some mount ∧ w.config.cryptraw = some base ∧
  w.localStorage CONFIG_KEYS.rclonePassword = some pw ∧ pw ≠ [] ∧
  w.localStorage CONFIG_KEYS.rcloneSalt = some salt ∧ salt ≠ [] ∧
  w.localStorage CONFIG_KEYS.encode = some enc ∧ enc ≠ []

/-- The invariant that the specification gives for a logical path: it begins
with `/`, it does not end with `/` unless it is exactly `/`, and it does not
begin with a routing prefix. -/
@[reducible] def LogicalPathInvariant (path : JSString) : Prop :=
  startsWith path "/".toList = true ∧
  (endsWith path "/".toList = true → path = "/".toList) ∧
  hasRoutingPrefix path = false

/-- The path of `getCurrentAlistPath` before the trailing slash is cut
(the value of `path` after line 70). -/
def beforeSlice (d : JSString) : JSString :=
  "/".toList ++ replaceAnchored "/".toList []
    (match matchRoutingPrefix d with
      | some m => "/".toList ++ d.drop m.length
      | none => d)

/-- What can happen on the page after the script has run. -/
inductive Event where
  /-- The router of the host page changes the location. -/
  | navigate (decodedPathname : JSString)
  /-- The browser delivers one batch of mutations. -/
  | mutations (batch : List MutationRecord)
  /-- The browser runs an animation frame. -/
  | animationFrame
  /-- The document fires `DOMContentLoaded`. -/
  | domContentLoaded

/-- The effect of one event on the page. -/
def World.step (w : World) : Event → World
  | .navigate p => { w with decodedPathname := p }
  | .mutations batch => if w.observing then observerCallback w batch else w
  | .animationFrame => runAnimationFrame w
  | .domContentLoaded => fireDOMContentLoaded w

/-- The effect of a sequence of events. -/
def World.run (w : World) (events : List Event) : World :=
  events.foldl World.step w

/-- The value of `refresh_btn.style.display`, when the control is mounted. -/
def World.display (w : World) : Option JSString :=
  w.refresh_btn.map (fun b => b.style.display)

/-- A stand-in for the encryption of a path under given credentials: the
password, a colon and the path reversed. -/
def sampleCipher (password : Option JSString) (path : JSString) : JSString :=
  toStr password ++ ":".toList ++ path.reverse

/-- A user who answers every prompt with `x`, a network that is down, a
library that encrypts with `sampleCipher` and a JSON reader that always
throws. -/
def sampleEnv : Env where
  userAnswer := fun _ => some "x".toList
  fetch := fun _ => .networkError "offline".toList
  rclone := fun password _ _ => .ok (fun path => .ok (sampleCipher password path))
  jsonErrorDetails := fun _ => none

/-- A user who cancels every prompt; the rest as in `sampleEnv`. -/
def cancellingEnv : Env :=
  { sampleEnv with userAnswer := fun _ => none }

/-- A store that holds the empty string under `cryptpath` and nothing else. -/
def emptyValueStore : JSString → Option JSString :=
  fun k => if k = "cryptpath".toList then some [] else none

/-- A store that holds `/crypt` under `cryptpath` and nothing else. -/
def cryptStore : JSString → Option JSString :=
  fun k => if k = "cryptpath".toList then some "/crypt".toList else none

/-- A store that holds nothing. -/
def emptyStore : JSString → Option JSString := fun _ => none

/-- A page at `/other` in the state in which the script starts, over a given
store: no button in the document, the document loaded, the host control
present. -/
def samplePage (store : JSString → Option JSString) : World :=
  World.initial store "https://alist.example".toList "/other".toList false false true

/-- A store that holds the three crypt credentials and nothing else. -/
def credStore : JSString → Option JSString :=
  fun k =>
    if k = "alistRefresh_rclonePassword".toList then some "secret".toList
    else if k = "alistRefresh_rcloneSalt".toList then some "salt".toList
    else if k = "cryptencode".toList then some "base64".toList
    else none

/-- A page at `/crypt/a` after a successful initialisation: origin, token,
mount path `/crypt` and base path `/real` configured, the credentials stored,
the control mounted and shown. -/
def configuredPage : World :=
  { samplePage credStore with
    config :=
      { Config.initial with
        baseUrl := some "https://alist.example".toList
        token := some "alist-token".toList
        crypt := some "/crypt".toList
        cryptraw := some "/real".toList }
    refresh_btn := some (newButton.setDisplay "block".toList)
    documentHasButton := true
    decodedPathname := "/crypt/a".toList }

/-- A remote service that answers every request with status 500 and a body
that is not JSON; the rest as in `sampleEnv`. -/
def rejectingEnv : Env :=
  { sampleEnv with
    fetch := fun _ => .response ⟨500, "Internal Server Error".toList, .ok "oops".toList⟩ }

/-- The configured page with a token that holds a line feed between `to` and
`ken`: non-empty, but not a header value. -/
def badTokenPage : World :=
  { configuredPage with
    config := { configuredPage.config with
      token := some ("to".toList ++ [Char.ofNat 10] ++ "ken".toList) } }

/-- The configured page after a navigation to `/other`, outside the mount; the
control is still shown. -/
def otherPage : World :=
  { configuredPage with decodedPathname := "/other".toList }

/-- The remote service of `rejectingEnv` on a page where the encryption
library has not been loaded: `window.rclone` is undefined. -/
def noLibraryEnv : Env :=
  { rejectingEnv with
    rclone := fun _ _ _ =>
      .error "TypeError: Cannot read properties of undefined (reading 'Rclone')".toList }

/-- The target paths sent between two states. -/
def newTargets (before after : World) : List (Option JSString) :=
  (sentTargets after).drop (sentTargets before).length

/-! ## Properties of getCurrentAlistPath -/

theorem startsWith_append (p s : JSString) : startsWith (p ++ s) p = true := by
  simp [startsWith, List.isPrefixOf_iff_prefix]

theorem endsWith_append (s p : JSString) : endsWith (s ++ p) p = true := by
  simp [endsWith, List.isSuffixOf_iff_suffix]

theorem getCurrentAlistPath_eq (d : JSString) :
    getCurrentAlistPath d =
      if beforeSlice d ≠ "/".toList ∧ endsWith (beforeSlice d) "/".toList
      then (beforeSlice d).dropLast else beforeSlice d := rfl

theorem startsWith_iff (s p : JSString) : startsWith s p = true ↔ p <+: s := by
  simp [startsWith, List.isPrefixOf_iff_prefix]

theorem endsWith_iff (s p : JSString) : endsWith s p = true ↔ p <:+ s := by
  simp [endsWith, List.isSuffixOf_iff_suffix]

theorem matchRoutingPrefix_some (s m : JSString) (h : matchRoutingPrefix s = some m) :
    (m = "/@/".toList ∨ m = "/#/".toList ∨ m = "/dav/".toList) ∧ m <+: s := by
  unfold matchRoutingPrefix at h
  split_ifs at h with h1 h2 h3
  · cases h; exact ⟨Or.inl rfl, (startsWith_iff _ _).1 h1⟩
  · cases h; exact ⟨Or.inr (Or.inl rfl), (startsWith_iff _ _).1 h2⟩
  · cases h; exact ⟨Or.inr (Or.inr rfl), (startsWith_iff _ _).1 h3⟩

theorem matchRoutingPrefix_none (s : JSString) (h : matchRoutingPrefix s = none) :
    ¬ "/@/".toList <+: s ∧ ¬ "/#/".toList <+: s ∧ ¬ "/dav/".toList <+: s := by
  unfold matchRoutingPrefix at h
  split_ifs at h with h1 h2 h3
  exact ⟨fun c => h1 ((startsWith_iff _ _).2 c), fun c => h2 ((startsWith_iff _ _).2 c),
    fun c => h3 ((startsWith_iff _ _).2 c)⟩

theorem hasRoutingPrefix_iff (s : JSString) :
    hasRoutingPrefix s = true ↔
      ("/@/".toList <+: s ∨ "/#/".toList <+: s ∨ "/dav/".toList <+: s) := by
  unfold hasRoutingPrefix
  constructor
  · intro h
    rcases hm : matchRoutingPrefix s with _ | m
    · simp [hm] at h
    · obtain ⟨h1, h2⟩ := matchRoutingPrefix_some s m hm
      rcases h1 with h1 | h1 | h1 <;> subst h1
      · exact Or.inl h2
      · exact Or.inr (Or.inl h2)
      · exact Or.inr (Or.inr h2)
  · intro h
    rcases hm : matchRoutingPrefix s with _ | m
    · obtain ⟨h1, h2, h3⟩ := matchRoutingPrefix_none s hm
      rcases h with h | h | h <;> contradiction
    · rfl

/-- What is left of the decoded path after line 70, without its first slash,
is a suffix of the decoded path. -/
theorem beforeSlice_suffix (d : JSString) : ∃ r, beforeSlice d = '/' :: r ∧ r <:+ d := by
  unfold beforeSlice
  rcases hm : matchRoutingPrefix d with _ | m
  · simp only [replaceAnchored]
    split_ifs with h
    · exact ⟨d.drop 1, by simp, List.drop_suffix _ _⟩
    · exact ⟨d, by simp, List.suffix_refl _⟩
  · refine ⟨d.drop m.length, ?_, List.drop_suffix _ _⟩
    simp [replaceAnchored, startsWith]

theorem getCurrentAlistPath_trailing (d : JSString) (hd : endsWith d "//".toList = false)
    (h : endsWith (getCurrentAlistPath d) "/".toList = true) :
    getCurrentAlistPath d = "/".toList := by
  obtain ⟨r, hq, hr⟩ := beforeSlice_suffix d
  rw [getCurrentAlistPath_eq] at h ⊢
  rw [hq] at h ⊢
  split_ifs at h ⊢ with hc
  · obtain ⟨x, hx⟩ := (endsWith_iff _ _).1 hc.2
    obtain ⟨y, hy⟩ := (endsWith_iff _ _).1 h
    have hx2 : (x ++ "/".toList).dropLast = x := by
      simp [List.dropLast_concat]
    rw [← hx, hx2] at hy
    rw [← hx, hx2]
    rcases y with _ | ⟨c, y⟩
    · simpa using hy.symm
    · exfalso
      rw [← hy] at hx
      have hr2 : r = y ++ "//".toList := by
        simp at hx
        simp [hx.2]
      have : "//".toList <:+ d := List.IsSuffix.trans ⟨y, hr2.symm⟩ hr
      rw [← endsWith_iff, hd] at this
      exact absurd this (by simp)
  · by_contra hne
    exact hc ⟨hne, h⟩

theorem getCurrentAlistPath_le_beforeSlice (d : JSString) : getCurrentAlistPath d <+: beforeSlice d := by
  rw [getCurrentAlistPath_eq]
  split_ifs
  · exact List.dropLast_prefix _
  · exact List.prefix_refl _

theorem hasRoutingPrefix_mono (x q : JSString) (hx : x <+: q) (h : hasRoutingPrefix x = true) :
    hasRoutingPrefix q = true := by
  rw [hasRoutingPrefix_iff] at h ⊢
  rcases h with h | h | h
  · exact Or.inl (h.trans hx)
  · exact Or.inr (Or.inl (h.trans hx))
  · exact Or.inr (Or.inr (h.trans hx))

theorem beforeSlice_noRouting (d : JSString) (hs : startsWith d "/".toList = true)
    (hdd : ∀ m ∈ routingMarkers, ∀ n ∈ routingMarkers,
      startsWith d ("/".toList ++ m ++ "/".toList ++ n ++ "/".toList) = false) :
    hasRoutingPrefix (beforeSlice d) = false := by
  rw [Bool.eq_false_iff]
  intro h
  rw [hasRoutingPrefix_iff] at h
  unfold beforeSlice at h
  rcases hm : matchRoutingPrefix d with _ | m
  · obtain ⟨n1, n2, n3⟩ := matchRoutingPrefix_none d hm
    obtain ⟨t, ht⟩ := (startsWith_iff _ _).1 hs
    have hq : "/".toList ++ replaceAnchored "/".toList [] d = d := by
      simp only [replaceAnchored, hs, if_true]
      rw [← ht]; simp
    rw [hm] at h
    simp only [hq] at h
    rcases h with h | h | h <;> contradiction
  · obtain ⟨hm1, ⟨t, ht⟩⟩ := matchRoutingPrefix_some d m hm
    rw [hm] at h
    have hq : "/".toList ++ replaceAnchored "/".toList [] ("/".toList ++ d.drop m.length)
        = "/".toList ++ t := by
      rw [← ht]; simp [replaceAnchored, startsWith]
    simp only [hq] at h
    have key : ∀ a ∈ routingMarkers, ∀ n ∈ routingMarkers, m = "/".toList ++ a ++ "/".toList →
        ¬ ("/".toList ++ n ++ "/".toList) <+: ("/".toList ++ t) := by
      intro a ha n hn hma ⟨u, hu⟩
      have := hdd a ha n hn
      rw [Bool.eq_false_iff] at this
      apply this
      rw [startsWith_iff]
      refine ⟨u, ?_⟩
      rw [← ht, hma]
      simp at hu ⊢
      rw [← hu]
    have mA : "@".toList ∈ routingMarkers := by simp [routingMarkers]
    have mH : "#".toList ∈ routingMarkers := by simp [routingMarkers]
    have mD : "dav".toList ∈ routingMarkers := by simp [routingMarkers]
    rcases hm1 with hm1 | hm1 | hm1 <;> rcases h with h | h | h
    · exact key _ mA _ mA hm1 h
    · exact key _ mA _ mH hm1 h
    · exact key _ mA _ mD hm1 h
    · exact key _ mH _ mA hm1 h
    · exact key _ mH _ mH hm1 h
    · exact key _ mH _ mD hm1 h
    · exact key _ mD _ mA hm1 h
    · exact key _ mD _ mH hm1 h
    · exact key _ mD _ mD hm1 h
theorem normalise_core (s : JSString) :
    (if ('/' :: (s ++ ['/'])) ≠ ['/'] ∧ endsWith ('/' :: (s ++ ['/'])) ['/'] then
      ('/' :: (s ++ ['/'])).dropLast else '/' :: (s ++ ['/'])) = '/' :: s := by
  have h1 : ('/' :: (s ++ ['/'])) ≠ ['/'] := by
    intro h
    have := congrArg List.length h
    simp at this
  have h2 : endsWith ('/' :: (s ++ ['/'])) ['/'] = true := by
    have := endsWith_append ('/' :: s) ['/']
    simpa using this
  rw [if_pos ⟨h1, h2⟩]
  have : '/' :: (s ++ ['/']) = ('/' :: s) ++ ['/'] := by simp
  rw [this, List.dropLast_concat]

theorem getCurrentAlistPath_startsWith (d : JSString) :
    startsWith (getCurrentAlistPath d) "/".toList = true := by
  obtain ⟨r, hq, -⟩ := beforeSlice_suffix d
  rw [getCurrentAlistPath_eq, hq]
  split_ifs with hc
  · rcases r with _ | ⟨c, r⟩
    · exact absurd rfl hc.1
    · simp [startsWith]
  · simp [startsWith]

/-- C2. For each routing marker `m` among `@`, `#`, `dav` and every string `s`,
the decoded path `"/" + m + "/" + s + "/"` is normalised to `"/" + s`; the
witness path `/@/crypt/My Folder/` gives `/crypt/My Folder`; the decoded path
`/` stays `/`. -/
theorem getCurrentAlistPath_strips (s : JSString) :
    getCurrentAlistPath ("/".toList ++ "@".toList ++ "/".toList ++ s ++ "/".toList)
      = "/".toList ++ s ∧
    getCurrentAlistPath ("/".toList ++ "#".toList ++ "/".toList ++ s ++ "/".toList)
      = "/".toList ++ s ∧
    getCurrentAlistPath ("/".toList ++ "dav".toList ++ "/".toList ++ s ++ "/".toList)
      = "/".toList ++ s ∧
    getCurrentAlistPath "/@/crypt/My Folder/".toList = "/crypt/My Folder".toList ∧
    getCurrentAlistPath "/".toList = "/".toList := by
  have h := normalise_core s
  refine ⟨?_, ?_, ?_, by decide, by decide⟩
  · simp [getCurrentAlistPath, matchRoutingPrefix, startsWith, replaceAnchored]
    simpa using h
  · simp [getCurrentAlistPath, matchRoutingPrefix, startsWith, replaceAnchored]
    simpa using h
  · simp [getCurrentAlistPath, matchRoutingPrefix, startsWith, replaceAnchored]
    simpa using h

/-- C3, as stated, fails: the decoded path `/a//` is normalised to `/a/`, which
ends with `/` without being `/`, and the decoded path `/@/@/x` is normalised to
`/@/x`, which begins with the routing prefix `/@/`. -/
theorem getCurrentAlistPath_invariant_fails :
    getCurrentAlistPath "/a//".toList = "/a/".toList ∧
    ¬ LogicalPathInvariant (getCurrentAlistPath "/a//".toList) ∧
    getCurrentAlistPath "/@/@/x".toList = "/@/x".toList ∧
    ¬ LogicalPathInvariant (getCurrentAlistPath "/@/@/x".toList) := by
  decide

/-- C3, amended. For every decoded location path the result of
`getCurrentAlistPath` begins with `/`; when the decoded path does not end with
`//`, the result does not end with `/` unless it is exactly `/`; when the
decoded path begins with `/`, as the pathname of a location does, and does not
begin with two routing markers in a row (`/m/n/` with `m`, `n` among `@`, `#`,
`dav`), the result does not begin with a routing prefix. -/
theorem getCurrentAlistPath_invariant_amended (d : JSString) :
    startsWith (getCurrentAlistPath d) "/".toList = true ∧
    (endsWith d "//".toList = false →
      endsWith (getCurrentAlistPath d) "/".toList = true →
      getCurrentAlistPath d = "/".toList) ∧
    (startsWith d "/".toList = true →
      (∀ m ∈ routingMarkers, ∀ n ∈ routingMarkers,
        startsWith d ("/".toList ++ m ++ "/".toList ++ n ++ "/".toList) = false) →
      hasRoutingPrefix (getCurrentAlistPath d) = false) := by
  refine ⟨getCurrentAlistPath_startsWith d, getCurrentAlistPath_trailing d, ?_⟩
  intro hs hdd
  have h := beforeSlice_noRouting d hs hdd
  rw [Bool.eq_false_iff] at h ⊢
  exact fun c => h (hasRoutingPrefix_mono _ _ (getCurrentAlistPath_le_beforeSlice d) c)

/-- Witness of C3 amended at the decoded path `/@/crypt/My Folder/`, where the
three parts together give the invariant. -/
theorem getCurrentAlistPath_invariant_amended_witness :
    LogicalPathInvariant (getCurrentAlistPath "/@/crypt/My Folder/".toList) :=
  ⟨(getCurrentAlistPath_invariant_amended "/@/crypt/My Folder/".toList).1,
   (getCurrentAlistPath_invariant_amended "/@/crypt/My Folder/".toList).2.1 (by decide),
   (getCurrentAlistPath_invariant_amended "/@/crypt/My Folder/".toList).2.2
     (by decide) (by decide)⟩

/-! ## Properties of getConfig -/

theorem truthy_some_iff (v : JSString) : truthy (some v) = true ↔ v ≠ [] := by
  cases v <;> simp [truthy]

theorem getConfig_of_stored (env : Env) (w : World) (key promptMessage : JSString)
    (isSensitive : Bool) (v : JSString) (hv : w.localStorage key = some v) (hne : v ≠ []) :
    getConfig env w key promptMessage isSensitive = (.ok (some v), w) := by
  have ht : truthy (some v) = true := (truthy_some_iff v).2 hne
  simp [getConfig, hv, ht]

/-- C6, as stated, fails: over a store that holds the empty string under the key
`cryptpath`, `getConfig` shows the prompt, returns the answer of the user and
overwrites the stored value. -/
theorem getConfig_emptyValue_prompts :
    (samplePage emptyValueStore).localStorage "cryptpath".toList = some [] ∧
    (getConfig sampleEnv (samplePage emptyValueStore) "cryptpath".toList "Mount?".toList false).2.prompts
      = ["Mount?".toList] ∧
    (getConfig sampleEnv (samplePage emptyValueStore) "cryptpath".toList "Mount?".toList false).2.localStorage
      "cryptpath".toList = some "x".toList ∧
    (getConfig sampleEnv (samplePage emptyValueStore) "cryptpath".toList "Mount?".toList false).1
      = .ok (some "x".toList) :=
  ⟨by decide, by decide, by decide, rfl⟩

/-- C6, amended. For every store, every key stored in it with a non-empty
string value `v`, every prompt text and either value of the sensitive flag,
`getConfig` returns `v`, shows no prompt and leaves the store as it is; the
whole world is left as it is. -/
theorem getConfig_stored (env : Env) (w : World) (key promptMessage : JSString)
    (isSensitive : Bool) (v : JSString) (hv : w.localStorage key = some v) (hne : v ≠ []) :
    (getConfig env w key promptMessage isSensitive).1 = .ok (some v) ∧
    (getConfig env w key promptMessage isSensitive).2.prompts = w.prompts ∧
    (getConfig env w key promptMessage isSensitive).2.localStorage = w.localStorage ∧
    (getConfig env w key promptMessage isSensitive).2 = w := by
  rw [getConfig_of_stored env w key promptMessage isSensitive v hv hne]
  exact ⟨rfl, rfl, rfl, rfl⟩

/-- Witness of C6 amended: `/crypt` stored under `cryptpath`. -/
theorem getConfig_stored_witness :
    (getConfig sampleEnv (samplePage cryptStore) "cryptpath".toList "Mount?".toList true).1
      = .ok (some "/crypt".toList) ∧
    (getConfig sampleEnv (samplePage cryptStore) "cryptpath".toList "Mount?".toList true).2.prompts
      = [] :=
  ⟨(getConfig_stored sampleEnv (samplePage cryptStore) "cryptpath".toList "Mount?".toList true
      "/crypt".toList (by decide) (by decide)).1,
   (getConfig_stored sampleEnv (samplePage cryptStore) "cryptpath".toList "Mount?".toList true
      "/crypt".toList (by decide) (by decide)).2.1⟩

/-- C7. Over a store in which the key is absent: when the user declines the
prompt (it returns `null` or the empty string), `getConfig` throws when
`isSensitive` is true and returns `null` when it is false, and the store is
unchanged in both cases; when the user supplies a non-empty value, `getConfig`
returns it and the store afterwards maps the key to it and every other key as
before. -/
theorem getConfig_absent (env : Env) (w : World) (key promptMessage : JSString)
    (habs : w.localStorage key = none) :
    (truthy (env.userAnswer w.prompts.length) = false →
      (getConfig env w key promptMessage true).1
        = .error ("Alist Refresh: User cancelled or provided no input for ".toList ++ key
            ++ ".".toList) ∧
      (getConfig env w key promptMessage true).2.localStorage = w.localStorage ∧
      (getConfig env w key promptMessage false).1 = .ok none ∧
      (getConfig env w key promptMessage false).2.localStorage = w.localStorage) ∧
    (∀ v, env.userAnswer w.prompts.length = some v → v ≠ [] → ∀ isSensitive,
      (getConfig env w key promptMessage isSensitive).1 = .ok (some v) ∧
      (getConfig env w key promptMessage isSensitive).2.localStorage key = some v ∧
      ∀ k, k ≠ key →
        (getConfig env w key promptMessage isSensitive).2.localStorage k = w.localStorage k) := by
  have h0 : truthy (w.localStorage key) = false := by rw [habs]; rfl
  constructor
  · intro hd
    simp [getConfig, h0, prompt, hd, consoleError]
  · intro v hv hne isSensitive
    have ht : truthy (some v) = true := (truthy_some_iff v).2 hne
    simp [getConfig, h0, prompt, hv, ht, setItem, consoleLog, toStr]
    intro k hk
    simp [hk]

/-- Witness of C7: over the empty store, a user who cancels and a user who
answers `x`. -/
theorem getConfig_absent_witness :
    ((getConfig cancellingEnv (samplePage emptyStore) "cryptpath".toList "Mount?".toList false).1
        = .ok none) ∧
    ((getConfig sampleEnv (samplePage emptyStore) "cryptpath".toList "Mount?".toList true).1
        = .ok (some "x".toList)) :=
  ⟨((getConfig_absent cancellingEnv (samplePage emptyStore) "cryptpath".toList "Mount?".toList
      rfl).1 rfl).2.2.1,
   ((getConfig_absent sampleEnv (samplePage emptyStore) "cryptpath".toList "Mount?".toList
      rfl).2 "x".toList rfl (by decide) true).1⟩
/-! ## Properties of the control and of update -/

/-- C4. For every mounted control, whatever its display was, every mount path
and every location: after `update()` the display is `'block'` when the logical
path begins with the mount path and `'none'` otherwise, so the control is
visible exactly when the logical path begins with the mount path and hidden
exactly when it does not; with the mount path `/crypt`, the locations
`/crypt/a` and `/crypt` give visible and `/other` gives hidden. -/
theorem update_visibility (w : World) (btn : Button) (mount : JSString)
    (hb : w.refresh_btn = some btn) (hc : w.config.crypt = some mount) :
    (update w).refresh_btn = some (btn.setDisplay
      (if startsWith (getCurrentAlistPath w.decodedPathname) mount
        then "block".toList else "none".toList)) ∧
    ((update w).display = some "block".toList ↔
      startsWith (getCurrentAlistPath w.decodedPathname) mount = true) ∧
    ((update w).display = some "none".toList ↔
      startsWith (getCurrentAlistPath w.decodedPathname) mount = false) ∧
    (mount = "/crypt".toList →
      (w.decodedPathname = "/crypt/a".toList → (update w).display = some "block".toList) ∧
      (w.decodedPathname = "/crypt".toList → (update w).display = some "block".toList) ∧
      (w.decodedPathname = "/other".toList → (update w).display = some "none".toList)) := by
  have key : (update w).refresh_btn = some (btn.setDisplay
      (if startsWith (getCurrentAlistPath w.decodedPathname) mount
        then "block".toList else "none".toList)) := by
    unfold update
    rw [hb, hc]
    simp only [toStr]
    split_ifs <;> rfl
  have hd : (update w).display = some (if startsWith (getCurrentAlistPath w.decodedPathname) mount
        then "block".toList else "none".toList) := by
    unfold World.display
    rw [key]
    rfl
  refine ⟨key, ?_, ?_, ?_⟩
  · rw [hd]
    by_cases h : startsWith (getCurrentAlistPath w.decodedPathname) mount = true
    · simp [h]
    · simp [h]
  · rw [hd]
    by_cases h : startsWith (getCurrentAlistPath w.decodedPathname) mount = true
    · simp [h]
    · simp [h]
  · intro hm
    subst hm
    rw [hd]
    refine ⟨?_, ?_, ?_⟩ <;> intro hp <;> rw [hp] <;> decide

/-- A mounted control with display `'none'` on the page `/crypt/a` with the
mount path `/crypt`. -/
theorem update_visibility_witness :
    (update { samplePage cryptStore with
        refresh_btn := some (newButton.setDisplay "none".toList)
        decodedPathname := "/crypt/a".toList
        config := { Config.initial with crypt := some "/crypt".toList } }).display
      = some "block".toList :=
  ((update_visibility { samplePage cryptStore with
        refresh_btn := some (newButton.setDisplay "none".toList)
        decodedPathname := "/crypt/a".toList
        config := { Config.initial with crypt := some "/crypt".toList } }
      (newButton.setDisplay "none".toList) "/crypt".toList rfl rfl).2.2.2 rfl).1 rfl

/-- C5, as stated, fails: on a page without the control, the control that
`addFixedRefreshButton` has just mounted has the display `''`, not `'none'`: it
is not hidden. -/
theorem addFixedRefreshButton_not_hidden :
    (samplePage emptyStore).documentHasButton = false ∧
    (addFixedRefreshButton (samplePage emptyStore)).display = some [] ∧
    (addFixedRefreshButton (samplePage emptyStore)).refresh_btn.map Button.hidden = some false := by
  decide

/-- C5, amended. On every page in which the control is not yet present,
`addFixedRefreshButton` mounts the control with its display unset (the empty
string, neither `'none'` nor `'block'`), so before any `update()` the control
is not in the hidden state; the first `update()` then hides it exactly when the
logical path does not begin with the configured mount path. -/
theorem addFixedRefreshButton_display (w : World) (hdoc : w.documentHasButton = false) :
    (addFixedRefreshButton w).refresh_btn = some newButton ∧
    (addFixedRefreshButton w).documentHasButton = true ∧
    (addFixedRefreshButton w).display = some [] ∧
    newButton.hidden = false ∧ newButton.visible = false ∧
    ((update (addFixedRefreshButton w)).display = some "none".toList ↔
      startsWith (getCurrentAlistPath w.decodedPathname) (toStr w.config.crypt) = false) := by
  have h1 : (addFixedRefreshButton w).refresh_btn = some newButton := by
    simp [addFixedRefreshButton, hdoc, consoleLog]
  have h2 : (addFixedRefreshButton w).decodedPathname = w.decodedPathname := by
    simp [addFixedRefreshButton, hdoc, consoleLog]
  have h3 : (addFixedRefreshButton w).config = w.config := by
    simp [addFixedRefreshButton, hdoc, consoleLog]
  refine ⟨h1, ?_, ?_, by decide, by decide, ?_⟩
  · simp [addFixedRefreshButton, hdoc, consoleLog]
  · unfold World.display; rw [h1]; rfl
  · unfold World.display update
    rw [h1, h2, h3]
    by_cases h : startsWith (getCurrentAlistPath w.decodedPathname) (toStr w.config.crypt) = true
    · simp [h, Button.setDisplay]
    · simp [h, Button.setDisplay]

/-- Witness of C5 amended on the sample page. -/
theorem addFixedRefreshButton_display_witness :
    (addFixedRefreshButton (samplePage emptyStore)).display = some [] :=
  (addFixedRefreshButton_display (samplePage emptyStore) rfl).2.2.1
/-! ## Properties of the watcher -/

theorem update_update (w : World) : update (update w) = update w := by
  unfold update
  rcases hb : w.refresh_btn with _ | btn
  · simp [hb]
  · by_cases h : startsWith (getCurrentAlistPath w.decodedPathname) (toStr w.config.crypt) = true
    · simp [h, Button.setDisplay]
    · simp [h, Button.setDisplay]

theorem deliverBatches_eq (batches : List (List MutationRecord)) (w : World) :
    deliverBatches w batches =
      { w with frameCallbacks :=
          w.frameCallbacks ++ List.replicate batches.length FrameCallback.update } := by
  induction batches generalizing w with
  | nil => simp [deliverBatches]
  | cons b rest ih =>
    rw [deliverBatches, ih]
    simp [observerCallback, List.replicate_succ]

theorem foldl_update_replicate (n : Nat) (w : World) :
    (List.replicate (n + 1) FrameCallback.update).foldl
      (fun w cb => match cb with | .update => update w) w = update w := by
  induction n generalizing w with
  | zero => simp
  | succ n ih =>
    rw [List.replicate_succ, List.foldl_cons, ih]
    exact update_update w

/-- C9, as stated, fails: two batches of mutations delivered between two
animation frames schedule `update()` twice for the next frame. -/
theorem observer_schedules_twice :
    (samplePage emptyStore).frameCallbacks = [] ∧
    (deliverBatches (samplePage emptyStore) [[⟨1, 0⟩], [⟨0, 1⟩]]).frameCallbacks
      = [FrameCallback.update, FrameCallback.update] ∧
    ¬ (deliverBatches (samplePage emptyStore) [[⟨1, 0⟩], [⟨0, 1⟩]]).frameCallbacks.length ≤ 1 := by
  decide

/-- C9, amended. For every sequence of mutation batches delivered to the
observer callback between two animation frames, `update()` is scheduled once
for each batch; when nothing else is pending and at least one batch was
delivered, the next frame runs all these evaluations on the same location and
leaves the page in the state that a single `update()` gives, so the
evaluations of one frame do not contradict each other. -/
theorem observer_schedules_per_batch (w : World) (batches : List (List MutationRecord)) :
    (deliverBatches w batches).frameCallbacks.length
      = w.frameCallbacks.length + batches.length ∧
    (w.frameCallbacks = [] → batches ≠ [] →
      runAnimationFrame (deliverBatches w batches) = update w) := by
  constructor
  · rw [deliverBatches_eq]
    simp
  · intro hw hb
    rw [deliverBatches_eq, hw]
    obtain ⟨n, hn⟩ : ∃ n, batches.length = n + 1 := by
      cases batches with
      | nil => exact absurd rfl hb
      | cons b rest => exact ⟨rest.length, rfl⟩
    unfold runAnimationFrame
    simp only [List.nil_append, hn]
    rw [foldl_update_replicate]
    have : ({ w with frameCallbacks := [] } : World) = w := by
      cases w; simp_all
    rw [this]

/-- Witness of C9 amended: the configured page after a navigation to `/other`,
with the control mounted and shown.  Two batches schedule two evaluations, and
the frame that runs them hides the control, as one `update()` does. -/
theorem observer_schedules_per_batch_witness :
    otherPage.display = some "block".toList ∧
    (deliverBatches otherPage [[⟨1, 0⟩], [⟨0, 1⟩]]).frameCallbacks.length = 2 ∧
    (runAnimationFrame (deliverBatches otherPage [[⟨1, 0⟩], [⟨0, 1⟩]])).display
      = some "none".toList :=
  ⟨by decide,
   (observer_schedules_per_batch otherPage [[⟨1, 0⟩], [⟨0, 1⟩]]).1,
   (congrArg World.display
      ((observer_schedules_per_batch otherPage [[⟨1, 0⟩], [⟨0, 1⟩]]).2 rfl (by decide))).trans
     (by decide)⟩

/-! ## Properties of the initialisation -/

theorem update_of_unmounted (w : World) (h : w.refresh_btn = none) : update w = w := by
  unfold update
  rw [h]

theorem foldl_update_of_unmounted (cbs : List FrameCallback) (w : World)
    (h : w.refresh_btn = none) :
    cbs.foldl (fun w cb => match cb with | .update => update w) w = w := by
  induction cbs with
  | nil => rfl
  | cons cb rest ih =>
    cases cb
    rw [List.foldl_cons]
    simp only [update_of_unmounted w h]
    exact ih

theorem step_of_unmounted (w : World) (e : Event) (h1 : w.refresh_btn = none)
    (h2 : w.domContentLoaded = []) :
    (w.step e).refresh_btn = none ∧ (w.step e).domContentLoaded = [] ∧
    (w.step e).documentHasButton = w.documentHasButton ∧
    (w.step e).prompts = w.prompts ∧ (w.step e).alerts = w.alerts := by
  cases e with
  | navigate p => exact ⟨h1, h2, rfl, rfl, rfl⟩
  | mutations batch =>
    have hs : w.step (Event.mutations batch)
        = if w.observing then observerCallback w batch else w := rfl
    rw [hs]
    split_ifs
    · exact ⟨h1, h2, rfl, rfl, rfl⟩
    · exact ⟨h1, h2, rfl, rfl, rfl⟩
  | animationFrame =>
    have hf : runAnimationFrame w = { w with frameCallbacks := [] } :=
      foldl_update_of_unmounted w.frameCallbacks _ h1
    have hs : w.step Event.animationFrame = runAnimationFrame w := rfl
    rw [hs, hf]
    exact ⟨h1, h2, rfl, rfl, rfl⟩
  | domContentLoaded =>
    have hf : fireDOMContentLoaded w = { w with readyStateLoading := false } := by
      unfold fireDOMContentLoaded
      rw [h2]
      rfl
    have hs : w.step Event.domContentLoaded = fireDOMContentLoaded w := rfl
    rw [hs, hf]
    exact ⟨h1, h2, rfl, rfl, rfl⟩

theorem run_of_unmounted (events : List Event) (w : World) (h1 : w.refresh_btn = none)
    (h2 : w.domContentLoaded = []) :
    (w.run events).refresh_btn = none ∧ (w.run events).domContentLoaded = [] ∧
    (w.run events).documentHasButton = w.documentHasButton ∧
    (w.run events).prompts = w.prompts ∧ (w.run events).alerts = w.alerts := by
  induction events generalizing w with
  | nil => exact ⟨h1, h2, rfl, rfl, rfl⟩
  | cons e rest ih =>
    obtain ⟨a, b, c, d, f⟩ := step_of_unmounted w e h1 h2
    obtain ⟨a2, b2, c2, d2, f2⟩ := ih (w.step e) a b
    unfold World.run at *
    rw [List.foldl_cons]
    exact ⟨a2, b2, c2.trans c, d2.trans d, f2.trans f⟩

theorem initialize_of_no_token (env : Env) (w : World)
    (h : truthy (w.localStorage "token".toList) = false) :
    ∃ w2, initializeAlistRefresh env w = (.ok (), w2) ∧
      w2.alerts = w.alerts ++
        ["Alist API Token not found in localStorage (key: 'token'). Please login first.".toList] ∧
      w2.prompts = w.prompts ∧ w2.localStorage = w.localStorage ∧
      w2.refresh_btn = w.refresh_btn ∧ w2.documentHasButton = w.documentHasButton ∧
      w2.domContentLoaded = w.domContentLoaded := by
  simp only [initializeAlistRefresh, consoleLog, h, Bool.not_false, if_true]
  exact ⟨_, rfl, rfl, rfl, rfl, rfl, rfl, rfl⟩

/-- C10. Over every store in which the key `token` is absent or holds the empty
string: `initializeAlistRefresh` returns after one alert, shows no prompt,
leaves the store, the control and the `DOMContentLoaded` listeners as they
were; and when the script starts on a page, whatever events follow
(navigation to any location, mutation batches, animation frames,
`DOMContentLoaded`), the control stays unmounted, no prompt is shown and
`update()` changes nothing. -/
theorem initialize_without_token (env : Env) (store : JSString → Option JSString)
    (h : truthy (store "token".toList) = false) :
    (∀ w : World, w.localStorage = store →
      (initializeAlistRefresh env w).1 = .ok () ∧
      (initializeAlistRefresh env w).2.alerts = w.alerts ++
        ["Alist API Token not found in localStorage (key: 'token'). Please login first.".toList] ∧
      (initializeAlistRefresh env w).2.prompts = w.prompts ∧
      (initializeAlistRefresh env w).2.localStorage = w.localStorage ∧
      (initializeAlistRefresh env w).2.refresh_btn = w.refresh_btn ∧
      (initializeAlistRefresh env w).2.documentHasButton = w.documentHasButton ∧
      (initializeAlistRefresh env w).2.domContentLoaded = w.domContentLoaded) ∧
    (∀ (origin decodedPathname : JSString) (hasButton loading hostControl : Bool)
      (events : List Event),
      (main env (World.initial store origin decodedPathname hasButton loading hostControl)).1
        = .ok () ∧
      ((main env (World.initial store origin decodedPathname hasButton loading
        hostControl)).2.run events).refresh_btn = none ∧
      ((main env (World.initial store origin decodedPathname hasButton loading
        hostControl)).2.run events).documentHasButton = hasButton ∧
      ((main env (World.initial store origin decodedPathname hasButton loading
        hostControl)).2.run events).prompts = [] ∧
      update ((main env (World.initial store origin decodedPathname hasButton loading
        hostControl)).2.run events)
        = (main env (World.initial store origin decodedPathname hasButton loading
            hostControl)).2.run events) := by
  constructor
  · intro w hw
    obtain ⟨w2, h0, h1, h2, h3, h4, h5, h6⟩ :=
      initialize_of_no_token env w (by rw [hw]; exact h)
    rw [h0]
    exact ⟨rfl, h1, h2, h3, h4, h5, h6⟩
  · intro origin decodedPathname hasButton loading hostControl events
    obtain ⟨w2, h0, -, h2, -, h4, h5, h6⟩ := initialize_of_no_token env
      (World.initial store origin decodedPathname hasButton loading hostControl) h
    have hm : (main env (World.initial store origin decodedPathname hasButton loading
        hostControl)).1 = .ok () ∧
        (main env (World.initial store origin decodedPathname hasButton loading
        hostControl)).2.refresh_btn = none ∧
        (main env (World.initial store origin decodedPathname hasButton loading
        hostControl)).2.domContentLoaded = [] ∧
        (main env (World.initial store origin decodedPathname hasButton loading
        hostControl)).2.documentHasButton = hasButton ∧
        (main env (World.initial store origin decodedPathname hasButton loading
        hostControl)).2.prompts = [] := by
      unfold main
      rw [h0]
      exact ⟨rfl, h4, h6, h5, h2⟩
    obtain ⟨m1, m2, m3, m4, m5⟩ := hm
    obtain ⟨r1, r2, r3, r4, r5⟩ := run_of_unmounted events _ m2 m3
    exact ⟨m1, r1, r3.trans m4, r4.trans m5, update_of_unmounted _ r1⟩

/-- Witness of C10: the script on the sample page over the empty store, followed
by a navigation into the mount, a batch of mutations and a frame. -/
theorem initialize_without_token_witness :
    ((main sampleEnv (samplePage emptyStore)).2.run
      [Event.navigate "/crypt/a".toList, Event.mutations [⟨1, 0⟩],
        Event.animationFrame]).refresh_btn = none :=
  ((initialize_without_token sampleEnv emptyStore rfl).2 "https://alist.example".toList
    "/other".toList false false true
    [Event.navigate "/crypt/a".toList, Event.mutations [⟨1, 0⟩], Event.animationFrame]).2.1

/-! ## Properties of refreshAlistPath -/

theorem replaceFirst_of_starts (pat rest : JSString) :
    replaceFirst pat [] (pat ++ rest) = rest := by
  rcases h : pat ++ rest with _ | ⟨c, cs⟩
  · have h1 : pat = [] := (List.append_eq_nil.1 h).1
    have h2 : rest = [] := (List.append_eq_nil.1 h).2
    simp [replaceFirst, h1, h2]
  · have hp : pat.isPrefixOf (c :: cs) = true := by
      rw [← h, List.isPrefixOf_iff_prefix]
      exact List.prefix_append _ _
    rw [replaceFirst, if_pos hp, ← h]
    simp

theorem relativeTail_mount (mount : JSString) : relativeTail (some mount) mount = [] := by
  have h := replaceFirst_of_starts mount []
  rw [List.append_nil] at h
  simp [relativeTail, toStr, h, startsWith]

theorem relativeTail_inside (mount t : JSString) :
    relativeTail (some mount) (mount ++ "/".toList ++ t) = t := by
  have h := replaceFirst_of_starts mount ("/".toList ++ t)
  rw [← List.append_assoc] at h
  simp only [relativeTail, toStr, h]
  simp [startsWith, replaceFirst]

theorem sendRefresh_requests (env : Env) (w : World) (target : Option JSString) :
    (sendRefresh env w target).requests = w.requests ++ [refreshRequest w.config target] ∧
    (sendRefresh env w target).encryptCalls = w.encryptCalls ∧
    (sendRefresh env w target).refresh_btn = w.refresh_btn ∧
    (sendRefresh env w target).alerts = w.alerts ∧
    (sendRefresh env w target).prompts = w.prompts := by
  simp only [sendRefresh]
  split
  · exact ⟨rfl, rfl, rfl, rfl, rfl⟩
  · split
    · exact ⟨rfl, rfl, rfl, rfl, rfl⟩
    · split_ifs <;> exact ⟨rfl, rfl, rfl, rfl, rfl⟩

theorem sendRefresh_rejected (env : Env) (w : World) (target : Option JSString) (r : Response)
    (hf : env.fetch (refreshRequest w.config target) = .response r) (hr : r.ok = false) :
    (sendRefresh env w target).hostRefreshClicks = w.hostRefreshClicks ∧
    (sendRefresh env w target).console.length = w.console.length + 1 ∧
    (∀ e ∈ (sendRefresh env w target).console, e ∉ w.console → e.level = Level.error) := by
  simp only [sendRefresh, hf]
  split
  · refine ⟨rfl, by simp [consoleError], ?_⟩
    intro e he hn
    simp only [consoleError, List.mem_append, List.mem_singleton] at he
    rcases he with he | he
    · exact absurd he hn
    · rw [he]
  · simp only [hr, Bool.not_false, if_true]
    refine ⟨rfl, by simp [consoleError], ?_⟩
    intro e he hn
    simp only [consoleError, List.mem_append, List.mem_singleton] at he
    rcases he with he | he
    · exact absurd he hn
    · rw [he]

theorem toStr_some (v : JSString) : toStr (some v) = v := rfl

theorem getConfig_of_truthy (env : Env) (w : World) (key promptMessage : JSString)
    (isSensitive : Bool) (h : truthy (w.localStorage key) = true) :
    getConfig env w key promptMessage isSensitive = (.ok (w.localStorage key), w) := by
  simp [getConfig, h]

theorem resolveTarget_of_library (env : Env) (w : World) (mount base curPath : JSString)
    (encrypt : JSString → JSString) (h1 : w.config.crypt = some mount)
    (h2 : w.config.cryptraw = some base)
    (hlib : env.rclone w.config.rclonePassword w.config.rcloneSalt w.config.encode
      = .ok (fun s => .ok (encrypt s))) :
    resolveTarget env w curPath =
      if relativeTail (some mount) curPath ≠ [] then
        (.ok (some (base ++ "/".toList ++ encrypt (relativeTail (some mount) curPath)),
            relativeTail (some mount) curPath),
          { w with encryptCalls := w.encryptCalls ++ [relativeTail (some mount) curPath] })
      else (.ok (some base, relativeTail (some mount) curPath), w) := by
  simp only [resolveTarget, h1, h2, hlib, toStr_some]

theorem refreshAlistPath_configured (env : Env) (w : World) (mount base pw salt enc : JSString)
    (curPath : JSString) (encrypt : JSString → JSString)
    (hc : Configured w mount base pw salt enc) (hp : curPath ≠ [])
    (hlib : env.rclone (some pw) (some salt) (some enc) = .ok (fun s => .ok (encrypt s))) :
    ∃ w2 e, refreshAlistPath env w curPath =
        (if validHeaderValue (toStr w.config.token) then
          (.ok (), sendRefresh env w2
            (if relativeTail (some mount) curPath ≠ [] then
              some (base ++ "/".toList ++ encrypt (relativeTail (some mount) curPath))
            else some base))
        else (.error e, w2)) ∧
      w2.requests = w.requests ∧ w2.refresh_btn = w.refresh_btn ∧
      w2.hostRefreshClicks = w.hostRefreshClicks ∧
      w2.encryptCalls = (if relativeTail (some mount) curPath ≠ [] then
        w.encryptCalls ++ [relativeTail (some mount) curPath] else w.encryptCalls) := by
  obtain ⟨h1, h2, h3, h4, h5, h6, h7, h8, h9, h10⟩ := hc
  have hp2 : truthy (some curPath) = true := (truthy_some_iff curPath).2 hp
  unfold refreshAlistPath
  simp only [h1, h2, hp2, Bool.not_true, Bool.or_self, Bool.false_eq_true, if_false]
  have t5 : truthy (w.localStorage CONFIG_KEYS.rclonePassword) = true := by
    rw [h5]; exact (truthy_some_iff pw).2 h6
  have t7 : truthy (w.localStorage CONFIG_KEYS.rcloneSalt) = true := by
    rw [h7]; exact (truthy_some_iff salt).2 h8
  have t9 : truthy (w.localStorage CONFIG_KEYS.encode) = true := by
    rw [h9]; exact (truthy_some_iff enc).2 h10
  simp only [getConfig_of_truthy, t5, t7, t9]
  simp only [h5, h7, h9]
  simp only [resolveTarget, h3, h4, hlib, toStr_some]
  by_cases ht : relativeTail (some mount) curPath = []
  · simp only [ht, ne_eq, not_true_eq_false, if_false, consoleLog]
    by_cases hv : validHeaderValue (toStr w.config.token) = true
    · simp only [hv, Bool.not_true, Bool.false_eq_true, if_false, if_true]
      exact ⟨_, [], rfl, rfl, rfl, rfl, rfl⟩
    · simp only [hv, Bool.not_eq_true, Bool.not_false, if_true, if_false]
      exact ⟨_, _, rfl, rfl, rfl, rfl, rfl⟩
  · simp only [ht, ne_eq, not_false_eq_true, if_true, consoleLog]
    by_cases hv : validHeaderValue (toStr w.config.token) = true
    · simp only [hv, Bool.not_true, Bool.false_eq_true, if_false, if_true]
      exact ⟨_, [], rfl, rfl, rfl, rfl, rfl⟩
    · simp only [hv, Bool.not_eq_true, Bool.not_false, if_true, if_false]
      exact ⟨_, _, rfl, rfl, rfl, rfl, rfl⟩
/-- C1. For every encryption function that the library gives, every base path
and every non-empty mount path.  In every state with this mount path and base
path, lines 99 to 111 resolve the mount path itself to the base path unchanged
without calling the encryption, and resolve `mount + "/" + t` with `t`
non-empty to `base + "/" + encrypt(t)`, calling the encryption once, on `t`.
With origin, token and the three credentials available besides: the refresh
started on the mount path sends the base path unchanged as its target and
does not call the encryption; the refresh started on `mount + "/" + t` sends
`base + "/" + encrypt(t)`; in both cases it is the only request, and it is sent
when `headers.append` accepts the token (otherwise nothing is sent); and two
runs from any two states with the same configuration and the same path send
the same target path. -/
theorem refreshAlistPath_target (env : Env) (w : World) (mount base pw salt enc : JSString)
    (encrypt : JSString → JSString) (hm : mount ≠ [])
    (hc : Configured w mount base pw salt enc)
    (hlib : env.rclone (some pw) (some salt) (some enc) = .ok (fun s => .ok (encrypt s))) :
    (∀ w1 : World, w1.config.crypt = some mount → w1.config.cryptraw = some base →
      env.rclone w1.config.rclonePassword w1.config.rcloneSalt w1.config.encode
        = .ok (fun s => .ok (encrypt s)) →
      ((resolveTarget env w1 mount).1 = .ok (some base, []) ∧
        (resolveTarget env w1 mount).2.encryptCalls = w1.encryptCalls) ∧
      ∀ t, t ≠ [] →
        (resolveTarget env w1 (mount ++ "/".toList ++ t)).1
          = .ok (some (base ++ "/".toList ++ encrypt t), t) ∧
        (resolveTarget env w1 (mount ++ "/".toList ++ t)).2.encryptCalls
          = w1.encryptCalls ++ [t]) ∧
    (sentTargets (refreshAlistPath env w mount).2
        = sentTargets w ++
            (if validHeaderValue (toStr w.config.token) then [some base] else []) ∧
      (refreshAlistPath env w mount).2.encryptCalls = w.encryptCalls) ∧
    (∀ t, t ≠ [] →
      sentTargets (refreshAlistPath env w (mount ++ "/".toList ++ t)).2
        = sentTargets w ++
            (if validHeaderValue (toStr w.config.token)
              then [some (base ++ "/".toList ++ encrypt t)] else []) ∧
      (refreshAlistPath env w (mount ++ "/".toList ++ t)).2.encryptCalls
        = w.encryptCalls ++ [t]) ∧
    (∀ w2, Configured w2 mount base pw salt enc → w2.config.token = w.config.token →
      ∀ p, (p = mount ∨ ∃ t, t ≠ [] ∧ p = mount ++ "/".toList ++ t) →
        newTargets w2 (refreshAlistPath env w2 p).2
          = newTargets w (refreshAlistPath env w p).2) := by
  have atMount : ∀ w1, Configured w1 mount base pw salt enc →
      sentTargets (refreshAlistPath env w1 mount).2
        = sentTargets w1 ++
            (if validHeaderValue (toStr w1.config.token) then [some base] else []) ∧
      (refreshAlistPath env w1 mount).2.encryptCalls = w1.encryptCalls := by
    intro w1 h1
    obtain ⟨w2, e, heq, r1, -, -, r4⟩ := refreshAlistPath_configured env w1 mount base pw salt
      enc mount encrypt h1 hm hlib
    rw [relativeTail_mount] at heq r4
    simp only [ne_eq, not_true_eq_false, if_false] at heq r4
    obtain ⟨s1, s2, -, -, -⟩ := sendRefresh_requests env w2 (some base)
    rw [heq]
    by_cases hv : validHeaderValue (toStr w1.config.token) = true
    · simp only [hv, if_true, sentTargets, s1, s2, r1, r4, List.map_append, List.map_cons,
        List.map_nil, refreshRequest, and_self]
    · simp only [hv, if_false, sentTargets, r1, r4, List.append_nil, and_self,
        Bool.false_eq_true]
  have inside : ∀ w1, Configured w1 mount base pw salt enc → ∀ t, t ≠ [] →
      sentTargets (refreshAlistPath env w1 (mount ++ "/".toList ++ t)).2
        = sentTargets w1 ++
            (if validHeaderValue (toStr w1.config.token)
              then [some (base ++ "/".toList ++ encrypt t)] else []) ∧
      (refreshAlistPath env w1 (mount ++ "/".toList ++ t)).2.encryptCalls
        = w1.encryptCalls ++ [t] := by
    intro w1 h1 t ht
    have hp : mount ++ "/".toList ++ t ≠ [] := by
      intro h
      exact ht (List.append_eq_nil.1 h).2
    obtain ⟨w2, e, heq, r1, -, -, r4⟩ := refreshAlistPath_configured env w1 mount base pw salt
      enc (mount ++ "/".toList ++ t) encrypt h1 hp hlib
    rw [relativeTail_inside] at heq r4
    simp only [ne_eq, ht, not_false_eq_true, if_true] at heq r4
    obtain ⟨s1, s2, -, -, -⟩ := sendRefresh_requests env w2
      (some (base ++ "/".toList ++ encrypt t))
    rw [heq]
    by_cases hv : validHeaderValue (toStr w1.config.token) = true
    · simp only [hv, if_true, sentTargets, s1, s2, r1, r4, List.map_append, List.map_cons,
        List.map_nil, refreshRequest, and_self]
    · simp only [hv, if_false, sentTargets, r1, r4, List.append_nil, and_self,
        Bool.false_eq_true]
  refine ⟨?_, atMount w hc, inside w hc, ?_⟩
  · intro w1 h1 h2 h3
    constructor
    · rw [resolveTarget_of_library env w1 mount base mount encrypt h1 h2 h3, relativeTail_mount]
      exact ⟨rfl, rfl⟩
    · intro t ht
      rw [resolveTarget_of_library env w1 mount base _ encrypt h1 h2 h3, relativeTail_inside]
      simp only [ne_eq, ht, not_false_eq_true, if_true, and_self]
  · intro w2 hc2 htok p hp
    rcases hp with hp | ⟨t, ht, hp⟩
    · rw [hp]
      unfold newTargets
      rw [(atMount w hc).1, (atMount w2 hc2).1, htok]
      simp
    · rw [hp]
      unfold newTargets
      rw [(inside w hc t ht).1, (inside w2 hc2 t ht).1, htok]
      simp

/-- Witness of C1: the configured page, refreshed on `/crypt/a/b`, with the
encryption `sampleCipher`: the one target sent is `/real/secret:b/a`. -/
theorem refreshAlistPath_target_witness :
    sentTargets (refreshAlistPath sampleEnv configuredPage
        ("/crypt".toList ++ "/".toList ++ "a/b".toList)).2
      = [some "/real/secret:b/a".toList] :=
  (((refreshAlistPath_target sampleEnv configuredPage "/crypt".toList "/real".toList
    "secret".toList "salt".toList "base64".toList (sampleCipher (some "secret".toList))
    (by decide) ⟨rfl, rfl, rfl, rfl, rfl, by decide, rfl, by decide, rfl, by decide⟩ rfl).2.2.1
    "a/b".toList (by decide)).1).trans (by decide)

/-- C8, as stated, fails: on a configured page (origin, token, mount path,
base path, credentials) with a remote service that answers 500,
`refreshAlistPath` throws when the token holds a line feed, because
`headers.append` rejects it, and throws when the encryption library is not
loaded; both statements stand before the `try` block and no request is sent. -/
theorem refreshAlistPath_throws_before_request :
    Configured badTokenPage "/crypt".toList "/real".toList "secret".toList "salt".toList
      "base64".toList ∧
    truthy badTokenPage.config.token = true ∧
    (refreshAlistPath rejectingEnv badTokenPage "/crypt/a".toList).1
      = .error "TypeError: Failed to execute 'append' on 'Headers': Invalid value".toList ∧
    (refreshAlistPath rejectingEnv badTokenPage "/crypt/a".toList).2.requests = [] ∧
    Configured configuredPage "/crypt".toList "/real".toList "secret".toList "salt".toList
      "base64".toList ∧
    (refreshAlistPath noLibraryEnv configuredPage "/crypt/a".toList).1
      = .error "TypeError: Cannot read properties of undefined (reading 'Rclone')".toList ∧
    (refreshAlistPath noLibraryEnv configuredPage "/crypt/a".toList).2.requests = [] :=
  ⟨⟨rfl, rfl, rfl, rfl, rfl, by decide, rfl, by decide, rfl, by decide⟩, rfl, rfl, by decide,
   ⟨rfl, rfl, rfl, rfl, rfl, by decide, rfl, by decide, rfl, by decide⟩, rfl, by decide⟩

/-- C8, amended. With origin, mount path, base path and the three credentials
available, a token that `headers.append` accepts and an encryption library
that is loaded and succeeds, for every logical path and every remote response
with a non-success status, whatever its body and whether or not it can be
read or parsed: `refreshAlistPath` completes without an exception, leaves the
control and its display as they were and dispatches no click on the host
refresh control. -/
theorem refreshAlistPath_absorbs_rejection (env : Env) (w : World)
    (mount base pw salt enc curPath : JSString) (encrypt : JSString → JSString) (r : Response)
    (hc : Configured w mount base pw salt enc)
    (hv : validHeaderValue (toStr w.config.token) = true)
    (hlib : env.rclone (some pw) (some salt) (some enc) = .ok (fun s => .ok (encrypt s)))
    (hf : ∀ request, env.fetch request = .response r) (hr : r.ok = false) :
    (refreshAlistPath env w curPath).1 = .ok () ∧
    (refreshAlistPath env w curPath).2.refresh_btn = w.refresh_btn ∧
    (refreshAlistPath env w curPath).2.display = w.display ∧
    (refreshAlistPath env w curPath).2.hostRefreshClicks = w.hostRefreshClicks := by
  by_cases hp : curPath = []
  · subst hp
    obtain ⟨h1, h2, -⟩ := hc
    have hp2 : truthy (some ([] : JSString)) = false := rfl
    simp only [refreshAlistPath, h1, h2, hp2, Bool.not_true, Bool.not_false, Bool.or_self,
      Bool.false_eq_true, if_false, if_true]
    exact ⟨trivial, rfl, rfl, rfl⟩
  · obtain ⟨w2, e, heq, -, r2, r3, -⟩ := refreshAlistPath_configured env w mount base pw salt
      enc curPath encrypt hc hp hlib
    rw [heq, if_pos hv]
    obtain ⟨-, -, s3, -, -⟩ := sendRefresh_requests env w2
      (if relativeTail (some mount) curPath ≠ [] then
        some (base ++ "/".toList ++ encrypt (relativeTail (some mount) curPath))
      else some base)
    obtain ⟨q1, -, -⟩ := sendRefresh_rejected env w2 _ r (hf _) hr
    refine ⟨rfl, s3.trans r2, ?_, q1.trans r3⟩
    simp only [World.display, s3, r2]

/-- Witness of C8 amended: the configured page, whose control is shown, with a
remote service that answers 500. -/
theorem refreshAlistPath_absorbs_rejection_witness :
    (refreshAlistPath rejectingEnv configuredPage "/crypt/a".toList).1 = .ok () ∧
    (refreshAlistPath rejectingEnv configuredPage "/crypt/a".toList).2.display
      = some "block".toList ∧
    (refreshAlistPath rejectingEnv configuredPage "/crypt/a".toList).2.requests.length = 1 :=
  ⟨(refreshAlistPath_absorbs_rejection rejectingEnv configuredPage "/crypt".toList
      "/real".toList "secret".toList "salt".toList "base64".toList "/crypt/a".toList
      (sampleCipher (some "secret".toList))
      ⟨500, "Internal Server Error".toList, .ok "oops".toList⟩
      ⟨rfl, rfl, rfl, rfl, rfl, by decide, rfl, by decide, rfl, by decide⟩
      (by decide) rfl (fun _ => rfl) rfl).1,
   (refreshAlistPath_absorbs_rejection rejectingEnv configuredPage "/crypt".toList
      "/real".toList "secret".toList "salt".toList "base64".toList "/crypt/a".toList
      (sampleCipher (some "secret".toList))
      ⟨500, "Internal Server Error".toList, .ok "oops".toList⟩
      ⟨rfl, rfl, rfl, rfl, rfl, by decide, rfl, by decide, rfl, by decide⟩
      (by decide) rfl (fun _ => rfl) rfl).2.2.1,
   by decide⟩

end AlistRefresh
